import Mathlib

/-!
# kanban-backend: request handlers over a document store

A shallow embedding of `index.js` (and of the earlier `src/index.js`): every
Express handler is a function from the store state and the request to the new
store state and the response.  The handlers await Mongoose calls inside a
`try`/`catch`; a call that throws is a value `Except.error e` here and the
`catch` branch is the corresponding match arm.

What is not among the sources is a parameter (`Env`): the schemas of
`models/User.js` and `models/Task.js`, the password hashing of the user model,
the session guard of `middlewares/auth.js` and the process configuration.
-/

namespace Kanban

/-! ## Data model -/

/-- A user document of the `User` collection; `password` holds the stored hash. -/
structure User where
  _id : Nat
  username : String
  email : String
  password : String
deriving DecidableEq, Repr

/-- A task document of the `Task` collection; `user` is the owner reference.  A
path that was never set is `none`. -/
structure Task where
  _id : Nat
  title : Option String
  description : Option String
  status : Option String
  priority : Option String
  dueDate : Option String
  user : Nat
deriving DecidableEq, Repr

/-- The document store: both collections and the source of fresh ObjectIds. -/
structure Db where
  users : List User
  tasks : List Task
  nextId : Nat
deriving DecidableEq, Repr

/-- The `_id` index of the task collection is unique, and every id in use was
handed out by the store. -/
def Db.WF (db : Db) : Prop :=
  (db.tasks.map (fun t => t._id)).Nodup ∧ ∀ t ∈ db.tasks, t._id < db.nextId

/-- The store before any request. -/
def Db.empty : Db := { users := [], tasks := [], nextId := 0 }

/-- The parsed JSON body of a request: an object whose members are strings. -/
abbrev ReqBody := List (String × String)

/-- Reading a member, as the destructuring `const { k } = req.body` does; a
member that is absent reads as `undefined`, here `none`. -/
def ReqBody.field (b : ReqBody) (k : String) : Option String := b.lookup k

/-- The error a store call throws in this invocation, if it throws one that does
not depend on the documents (lost connection, timeout, cast error). -/
abbrev Fault := Option String

/-! ## Schemas, hashing and tokens -/

/-- One schema path: whether it is required, its default, and its validators. -/
structure SchemaPath where
  required : Bool
  default : Option String
  valid : String → Bool

/-- The paths of the task schema other than `user`. -/
structure TaskSchema where
  title : SchemaPath
  description : SchemaPath
  status : SchemaPath
  priority : SchemaPath
  dueDate : SchemaPath

/-- The validators of the three required paths of the user schema. -/
structure UserSchema where
  username : String → Bool
  email : String → Bool
  password : String → Bool

/-- The payload of a token: the signed identity with issue and expiry time. -/
structure Claims where
  userId : Nat
  iat : Nat
  exp : Nat
deriving DecidableEq, Repr

/-- A signed token: its readable payload and the signature over it. -/
structure Token where
  payload : Claims
  signature : Nat
deriving DecidableEq, Repr

/-- Everything the handlers use that is configured or defined outside `index.js`. -/
structure Env where
  /-- The value of `process.env.JWT_SECRET`, `none` when it is not set. -/
  jwt_secret : Option String
  /-- The keyed signature of the token library. -/
  hmac : String → Claims → Nat
  /-- The hash stored in place of the password when a user is saved. -/
  hashPassword : String → String
  /-- The method `comparePassword` of a user document: candidate and stored hash. -/
  comparePassword : Option String → String → Except String Bool
  userSchema : UserSchema
  taskSchema : TaskSchema

/-- Document validation of one path at `save()`. -/
def SchemaPath.validate (p : SchemaPath) (name : String) (v : Option String) :
    Except String Unit :=
  match v with
  | none => if p.required then .error ("Path " ++ name ++ " is required.") else .ok ()
  | some s => if p.valid s then .ok () else .error ("Validator failed for path " ++ name)

/-- The value a path gets when a document is constructed. -/
def SchemaPath.construct (p : SchemaPath) (v : Option String) : Option String :=
  match v with
  | none => p.default
  | some s => some s

/-- An update validator: it runs only when the update sets the path. -/
def SchemaPath.validateUpdate (p : SchemaPath) (name : String) (v : Option String) :
    Except String Unit :=
  match v with
  | none => .ok ()
  | some s => if p.valid s then .ok () else .error ("Validator failed for path " ++ name)

/-- One day in seconds, the meaning of `expiresIn: '1d'`. -/
def oneDay : Nat := 86400

namespace jwt

/-- The call `jwt.sign({ userId }, jwt_secret, { expiresIn: '1d' })` at time `now`;
it throws when no secret is configured. -/
def sign (env : Env) (userId : Nat) (now : Nat) : Except String Token :=
  match env.jwt_secret with
  | none => .error "secretOrPrivateKey must have a value"
  | some key =>
    let claims : Claims := { userId := userId, iat := now, exp := now + oneDay }
    .ok { payload := claims, signature := env.hmac key claims }

/-- The call `jwt.verify(token, jwt_secret)` at time `now`: the payload when the
signature is the one the secret gives and the token has not expired. -/
def verify (env : Env) (token : Token) (now : Nat) : Option Claims :=
  match env.jwt_secret with
  | none => none
  | some key =>
    if token.signature = env.hmac key token.payload ∧ now < token.payload.exp then
      some token.payload
    else none

end jwt

/-! ## Store operations -/

/-- The two filters `index.js` passes to `User.findOne`. -/
inductive UserFilter where
  /-- The filter `{ email }`. -/
  | email (email : Option String)
  /-- The filter `{ $or: [{ email }, { username }] }`. -/
  | emailOrUsername (email : Option String) (username : Option String)

/-- Whether a user document satisfies a filter.  Every stored user has both
paths, so an `undefined` value matches none. -/
def UserFilter.matches (f : UserFilter) (u : User) : Bool :=
  match f with
  | .email e => decide (some u.email = e)
  | .emailOrUsername e n => decide (some u.email = e) || decide (some u.username = n)

/-- The call `User.findOne(filter)`. -/
def User.findOne (db : Db) (fault : Fault) (f : UserFilter) : Except String (Option User) :=
  match fault with
  | some e => .error e
  | none => .ok (db.users.find? f.matches)

/-- The call `User.create({ username, email, password })`: the three paths are
required and validated, the password is replaced by its hash, and the document
is inserted under a fresh id. -/
def User.create (env : Env) (db : Db) (fault : Fault)
    (username email password : Option String) : Except String (Db × User) :=
  match username, email, password with
  | some n, some e, some p =>
    if env.userSchema.username n && env.userSchema.email e && env.userSchema.password p then
      match fault with
      | some err => .error err
      | none =>
        let user : User :=
          { _id := db.nextId, username := n, email := e, password := env.hashPassword p }
        .ok ({ db with users := db.users ++ [user], nextId := db.nextId + 1 }, user)
    else .error "User validation failed"
  | _, _, _ => .error "User validation failed: a required path is missing"

/-- The five members a task handler reads from the body. -/
structure TaskFields where
  title : Option String
  description : Option String
  status : Option String
  priority : Option String
  dueDate : Option String
deriving DecidableEq, Repr

/-- The filter `{ _id: req.params.id, user: req.user.id }`. -/
structure TaskFilter where
  _id : Nat
  user : Nat
deriving DecidableEq, Repr

/-- Whether a task document satisfies the filter. -/
def TaskFilter.matches (f : TaskFilter) (t : Task) : Bool :=
  decide (t._id = f._id) && decide (t.user = f.user)

/-- Document validation of a task at `save()`. -/
def TaskSchema.validate (s : TaskSchema) (t : Task) : Except String Unit := do
  s.title.validate "title" t.title
  s.description.validate "description" t.description
  s.status.validate "status" t.status
  s.priority.validate "priority" t.priority
  s.dueDate.validate "dueDate" t.dueDate

/-- The update validators that `runValidators: true` switches on; they look at
the update only, before the store is queried. -/
def TaskSchema.validateUpdate (s : TaskSchema) (u : TaskFields) : Except String Unit := do
  s.title.validateUpdate "title" u.title
  s.description.validateUpdate "description" u.description
  s.status.validateUpdate "status" u.status
  s.priority.validateUpdate "priority" u.priority
  s.dueDate.validateUpdate "dueDate" u.dueDate

/-- The document `new Task({ title, description, status, priority, dueDate, user })`
builds, under the id the store hands out next. -/
def Task.construct (env : Env) (db : Db) (f : TaskFields) (user : Nat) : Task :=
  { _id := db.nextId
    title := env.taskSchema.title.construct f.title
    description := env.taskSchema.description.construct f.description
    status := env.taskSchema.status.construct f.status
    priority := env.taskSchema.priority.construct f.priority
    dueDate := env.taskSchema.dueDate.construct f.dueDate
    user := user }

/-- The call `task.save()`: validate the document, then insert it. -/
def Task.save (env : Env) (db : Db) (fault : Fault) (task : Task) : Except String Db :=
  match env.taskSchema.validate task with
  | .error e => .error e
  | .ok () =>
    match fault with
    | some e => .error e
    | none => .ok { db with tasks := db.tasks ++ [task], nextId := db.nextId + 1 }

/-- The call `Task.find({ user })`. -/
def Task.find (db : Db) (fault : Fault) (user : Nat) : Except String (List Task) :=
  match fault with
  | some e => .error e
  | none => .ok (db.tasks.filter (fun t => decide (t.user = user)))

/-- The call `Task.findOne({ _id, user })`. -/
def Task.findOne (db : Db) (fault : Fault) (f : TaskFilter) : Except String (Option Task) :=
  match fault with
  | some e => .error e
  | none => .ok (db.tasks.find? f.matches)

/-- Whether an update sets no path at all: members that are `undefined` are
dropped from an update. -/
def TaskFields.isEmpty (u : TaskFields) : Bool :=
  u.title.isNone && u.description.isNone && u.status.isNone && u.priority.isNone &&
    u.dueDate.isNone

/-- The document after the update: a path the update sets takes the new value,
every other path, the id and the owner among them, keeps its own. -/
def TaskFields.apply (u : TaskFields) (t : Task) : Task :=
  { t with
    title := u.title.orElse (fun _ => t.title)
    description := u.description.orElse (fun _ => t.description)
    status := u.status.orElse (fun _ => t.status)
    priority := u.priority.orElse (fun _ => t.priority)
    dueDate := u.dueDate.orElse (fun _ => t.dueDate) }

/-- Rewrite the first document that satisfies `p`. -/
def updateFirst (p : Task → Bool) (f : Task → Task) : List Task → List Task
  | [] => []
  | t :: ts => if p t then f t :: ts else t :: updateFirst p f ts

/-- The call `Task.findOneAndUpdate(filter, update, { new: true, runValidators: true })`:
an update that sets nothing is a plain `findOne`; otherwise the update is
validated, and the first matching document is rewritten and returned. -/
def Task.findOneAndUpdate (env : Env) (db : Db) (fault : Fault) (f : TaskFilter)
    (u : TaskFields) : Except String (Db × Option Task) :=
  if u.isEmpty then
    match Task.findOne db fault f with
    | .error e => .error e
    | .ok r => .ok (db, r)
  else
    match env.taskSchema.validateUpdate u with
    | .error e => .error e
    | .ok () =>
      match fault with
      | some e => .error e
      | none =>
        match db.tasks.find? f.matches with
        | none => .ok (db, none)
        | some t => .ok ({ db with tasks := updateFirst f.matches u.apply db.tasks }, some (u.apply t))

/-- The call `Task.findOneAndDelete({ _id, user })`. -/
def Task.findOneAndDelete (db : Db) (fault : Fault) (f : TaskFilter) :
    Except String (Db × Option Task) :=
  match fault with
  | some e => .error e
  | none =>
    match db.tasks.find? f.matches with
    | none => .ok (db, none)
    | some t => .ok ({ db with tasks := db.tasks.eraseP f.matches }, some t)

/-! ## Responses -/

/-- The object `{ id, username, email }` sent for a user. -/
structure UserView where
  id : Nat
  username : String
  email : String
deriving DecidableEq, Repr

/-- The body of a response, one constructor per shape `index.js` sends. -/
inductive Payload where
  /-- A body sent with `res.send`. -/
  | text (s : String)
  /-- The object `{ message }`. -/
  | message (message : String)
  /-- The object `{ message, error }`. -/
  | failure (message : String) (error : String)
  /-- The object `{ user: { id, username, email } }`. -/
  | registered (user : UserView)
  /-- The object `{ token, user: { id, username, email } }`. -/
  | loggedIn (token : Token) (user : UserView)
  /-- The object `{ message, userId }`. -/
  | authenticated (message : String) (userId : Nat)
  /-- A task document. -/
  | task (t : Task)
  /-- An array of task documents. -/
  | tasks (ts : List Task)
deriving DecidableEq, Repr

/-- The task documents a body carries. -/
def Payload.tasksOf : Payload → List Task
  | .task t => [t]
  | .tasks ts => ts
  | _ => []

/-- The token a body carries. -/
def Payload.tokenOf : Payload → Option Token
  | .loggedIn token _ => some token
  | _ => none

/-- A response: status code and body; `res.json` without `res.status` sends 200. -/
structure Response where
  status : Nat
  body : Payload
deriving DecidableEq, Repr

/-! ## Handlers -/

/-- Handler of `GET /`. -/
def getRoot (db : Db) : Db × Response :=
  (db, { status := 200, body := .text "Hello, worrld!" })

/-- Handler of `POST /register`; `f1` is the fault of `User.findOne`, `f2` of
`User.create`. -/
def postRegister (env : Env) (db : Db) (f1 f2 : Fault) (body : ReqBody) : Db × Response :=
  let username := body.field "username"
  let email := body.field "email"
  let password := body.field "password"
  match User.findOne db f1 (.emailOrUsername email username) with
  | .error e => (db, { status := 500, body := .failure "Error creating user" e })
  | .ok (some _) => (db, { status := 400, body := .message "User already exists" })
  | .ok none =>
    match User.create env db f2 username email password with
    | .error e => (db, { status := 500, body := .failure "Error creating user" e })
    | .ok (db1, user) =>
      (db1, { status := 201,
              body := .registered { id := user._id, username := user.username, email := user.email } })

/-- Handler of `POST /login` at time `now`. -/
def postLogin (env : Env) (db : Db) (fault : Fault) (now : Nat) (body : ReqBody) :
    Db × Response :=
  let email := body.field "email"
  let password := body.field "password"
  match User.findOne db fault (.email email) with
  | .error e => (db, { status := 500, body := .failure "Error logging in" e })
  | .ok none => (db, { status := 401, body := .message "Invalid credentials" })
  | .ok (some user) =>
    match env.comparePassword password user.password with
    | .error e => (db, { status := 500, body := .failure "Error logging in" e })
    | .ok false => (db, { status := 401, body := .message "Invalid credentials" })
    | .ok true =>
      match jwt.sign env user._id now with
      | .error e => (db, { status := 500, body := .failure "Error logging in" e })
      | .ok token =>
        (db, { status := 200,
               body := .loggedIn token
                 { id := user._id, username := user.username, email := user.email } })

/-- Handler of `GET /auth`, reached with the identity the guard attached. -/
def getAuth (db : Db) (uid : Nat) : Db × Response :=
  (db, { status := 200, body := .authenticated "Authenticated" uid })

/-- The members `{ title, description, status, priority, dueDate }` of a body. -/
def taskFieldsOf (body : ReqBody) : TaskFields :=
  { title := body.field "title"
    description := body.field "description"
    status := body.field "status"
    priority := body.field "priority"
    dueDate := body.field "dueDate" }

/-- Handler of `POST /todos` for the caller `uid`. -/
def postTodos (env : Env) (db : Db) (fault : Fault) (uid : Nat) (body : ReqBody) :
    Db × Response :=
  let task := Task.construct env db (taskFieldsOf body) uid
  match Task.save env db fault task with
  | .error e => (db, { status := 400, body := .failure "Error creating task" e })
  | .ok db1 => (db1, { status := 201, body := .task task })

/-- Handler of `GET /todos` for the caller `uid`. -/
def getTodos (db : Db) (fault : Fault) (uid : Nat) : Db × Response :=
  match Task.find db fault uid with
  | .error e => (db, { status := 500, body := .failure "Error fetching tasks" e })
  | .ok tasks => (db, { status := 200, body := .tasks tasks })

/-- Handler of `GET /todos/:id` for the caller `uid`. -/
def getTodo (db : Db) (fault : Fault) (uid : Nat) (id : Nat) : Db × Response :=
  match Task.findOne db fault { _id := id, user := uid } with
  | .error e => (db, { status := 500, body := .failure "Error fetching task" e })
  | .ok none => (db, { status := 404, body := .message "Task not found" })
  | .ok (some task) => (db, { status := 200, body := .task task })

/-- Handler of `PUT /todos/:id` for the caller `uid`. -/
def putTodo (env : Env) (db : Db) (fault : Fault) (uid : Nat) (id : Nat) (body : ReqBody) :
    Db × Response :=
  match Task.findOneAndUpdate env db fault { _id := id, user := uid } (taskFieldsOf body) with
  | .error e => (db, { status := 400, body := .failure "Error updating task" e })
  | .ok (_, none) => (db, { status := 404, body := .message "Task not found" })
  | .ok (db1, some task) => (db1, { status := 200, body := .task task })

/-- The update `{ status }` of the PATCH handler. -/
def statusOnly (body : ReqBody) : TaskFields :=
  { title := none, description := none, status := body.field "status", priority := none,
    dueDate := none }

/-- Handler of `PATCH /todos/:id` for the caller `uid`. -/
def patchTodo (env : Env) (db : Db) (fault : Fault) (uid : Nat) (id : Nat) (body : ReqBody) :
    Db × Response :=
  match Task.findOneAndUpdate env db fault { _id := id, user := uid } (statusOnly body) with
  | .error e => (db, { status := 400, body := .failure "Error updating task" e })
  | .ok (_, none) => (db, { status := 404, body := .message "Task not found" })
  | .ok (db1, some task) => (db1, { status := 200, body := .task task })

/-- Handler of `DELETE /todos/:id` for the caller `uid`. -/
def deleteTodo (db : Db) (fault : Fault) (uid : Nat) (id : Nat) : Db × Response :=
  match Task.findOneAndDelete db fault { _id := id, user := uid } with
  | .error e => (db, { status := 500, body := .failure "Error deleting task" e })
  | .ok (_, none) => (db, { status := 404, body := .message "Task not found" })
  | .ok (db1, some _) => (db1, { status := 200, body := .message "Task deleted successfully" })

/-! ## Routes and the session guard -/

/-- The HTTP methods the application registers routes for. -/
inductive Method where
  | GET | POST | PUT | PATCH | DELETE
deriving DecidableEq, Repr

/-- One registration `app.METHOD(path, [authenticateUser,] handler)`; `guarded`
records whether `authenticateUser` stands before the handler. -/
structure Route where
  method : Method
  path : String
  guarded : Bool
deriving DecidableEq, Repr

/-- The registrations of `index.js`, in source order. -/
def routes : List Route :=
  [ { method := .GET, path := "/", guarded := false },
    { method := .POST, path := "/register", guarded := false },
    { method := .POST, path := "/login", guarded := false },
    { method := .GET, path := "/auth", guarded := true },
    { method := .POST, path := "/todos", guarded := true },
    { method := .GET, path := "/todos", guarded := true },
    { method := .GET, path := "/todos/:id", guarded := true },
    { method := .PUT, path := "/todos/:id", guarded := true },
    { method := .PATCH, path := "/todos/:id", guarded := true },
    { method := .DELETE, path := "/todos/:id", guarded := true } ]

/-- The registrations of the earlier `src/index.js`, in source order. -/
def routesSrc : List Route :=
  [ { method := .GET, path := "/", guarded := false },
    { method := .POST, path := "/register", guarded := false },
    { method := .POST, path := "/login", guarded := false },
    { method := .GET, path := "/auth", guarded := true },
    { method := .GET, path := "/api/protected", guarded := true } ]

/-- The two routes that establish an identity. -/
def identityRoutes : List Route :=
  [ { method := .POST, path := "/register", guarded := false },
    { method := .POST, path := "/login", guarded := false } ]

/-- The session guard as the router sees it: it either answers the request
itself or passes on with the identity it attached to the request. -/
abbrev Guard := Option Token → Except Response Nat

/-- What the router does with a request that matched the route: the middleware
chain runs in order, so the handler of a guarded route runs only when the guard
passed on, and receives the identity as `req.user.id`; an unguarded handler runs
at once, with no identity. -/
def Route.dispatch {α : Type} (r : Route) (guard : Guard) (token : Option Token)
    (handler : Option Nat → α) : Except Response α :=
  if r.guarded then
    match guard token with
    | .error res => .error res
    | .ok uid => .ok (handler (some uid))
  else .ok (handler none)

/-! ## Sequences of handler invocations -/

/-- One invocation of a handler that the store can see, with the identity the
guard attached where the route is guarded. -/
inductive Call where
  | register (f1 f2 : Fault) (body : ReqBody)
  | login (fault : Fault) (now : Nat) (body : ReqBody)
  | create (fault : Fault) (uid : Nat) (body : ReqBody)
  | list (fault : Fault) (uid : Nat)
  | get (fault : Fault) (uid : Nat) (id : Nat)
  | update (fault : Fault) (uid : Nat) (id : Nat) (body : ReqBody)
  | patch (fault : Fault) (uid : Nat) (id : Nat) (body : ReqBody)
  | delete (fault : Fault) (uid : Nat) (id : Nat)

/-- Run the handler an invocation names. -/
def Call.exec (env : Env) (db : Db) : Call → Db × Response
  | .register f1 f2 body => postRegister env db f1 f2 body
  | .login fault now body => postLogin env db fault now body
  | .create fault uid body => postTodos env db fault uid body
  | .list fault uid => getTodos db fault uid
  | .get fault uid id => getTodo db fault uid id
  | .update fault uid id body => putTodo env db fault uid id body
  | .patch fault uid id body => patchTodo env db fault uid id body
  | .delete fault uid id => deleteTodo db fault uid id

/-- The store after a sequence of invocations, one after the other. -/
def run (env : Env) (db : Db) : List Call → Db
  | [] => db
  | c :: cs => run env (c.exec env db).1 cs

/-! ## A concrete configuration and store -/

/-- A configuration with the status and priority domains of a kanban board. -/
def demoEnv : Env :=
  { jwt_secret := some "s3cret"
    hmac := fun key c => key.length + 31 * c.userId + c.exp
    hashPassword := fun p => "h:" ++ p
    comparePassword := fun candidate hash =>
      match candidate with
      | none => .error "Illegal arguments: undefined, string"
      | some p => .ok (decide ("h:" ++ p = hash))
    userSchema := { username := fun _ => true, email := fun _ => true, password := fun _ => true }
    taskSchema :=
      { title := { required := true, default := none, valid := fun _ => true }
        description := { required := false, default := none, valid := fun _ => true }
        status :=
          { required := false, default := some "open"
            valid := fun s => decide (s ∈ ["open", "in-progress", "done"]) }
        priority :=
          { required := false, default := some "medium"
            valid := fun s => decide (s ∈ ["low", "medium", "high"]) }
        dueDate := { required := false, default := none, valid := fun _ => true } } }

/-- A store with two users, 0 (alice) and 1 (bob), and one task, 2, of alice. -/
def demoDb : Db :=
  { users :=
      [ { _id := 0, username := "alice", email := "a@x.com", password := "h:pw" },
        { _id := 1, username := "bob", email := "b@x.com", password := "h:qw" } ]
    tasks :=
      [ { _id := 2, title := some "buy milk", description := none, status := some "open",
          priority := some "low", dueDate := some "2025-01-01", user := 0 } ]
    nextId := 3 }

/-! ## Relations between store states -/

/-- The ways one handler invocation can change the store: not at all, by
inserting one user or one task under the next id, by rewriting the first match of
a filter with a function that keeps id and owner, or by deleting the first match
of a filter. -/
def Db.Successor (db d : Db) : Prop :=
  d = db ∨
  (∃ u : User, d = { db with users := db.users ++ [u], nextId := db.nextId + 1 }) ∨
  (∃ t : Task, t._id = db.nextId ∧
    d = { db with tasks := db.tasks ++ [t], nextId := db.nextId + 1 }) ∨
  (∃ (p : Task → Bool) (f : Task → Task), (∀ x, (f x)._id = x._id ∧ (f x).user = x.user) ∧
    d = { db with tasks := updateFirst p f db.tasks }) ∨
  (∃ p : Task → Bool, d = { db with tasks := db.tasks.eraseP p })

/-- Every task of `d` either is a task of `db` with the same id and owner, or
has an id that `db` had not handed out yet. -/
def Db.OwnersKept (db d : Db) : Prop :=
  db.nextId ≤ d.nextId ∧
  ∀ t2 ∈ d.tasks, (∃ t ∈ db.tasks, t._id = t2._id ∧ t.user = t2.user) ∨ db.nextId ≤ t2._id

/-! ## Lemmas on the task collection -/

/-- Two task documents of a well-formed store with the same id are the same. -/
theorem Db.WF.eq_of_id_eq {db : Db} (hwf : db.WF) {x t : Task} (hx : x ∈ db.tasks)
    (ht : t ∈ db.tasks) (h : x._id = t._id) : x = t :=
  List.inj_on_of_nodup_map hwf.1 hx ht h

/-- Under the id and owner filter, a caller who is not the owner finds nothing. -/
theorem find_other_owner {db : Db} (hwf : db.WF) {t : Task} (ht : t ∈ db.tasks) {b : Nat}
    (hb : b ≠ t.user) :
    db.tasks.find? (TaskFilter.matches { _id := t._id, user := b }) = none := by
  rw [List.find?_eq_none]
  intro x hx hm
  simp only [TaskFilter.matches, Bool.and_eq_true, decide_eq_true_eq] at hm
  have hxt : x = t := hwf.eq_of_id_eq hx ht hm.1
  exact hb (by rw [← hm.2, hxt])

/-- In a list with unique ids, the first document with the id of `t` is `t`. -/
theorem find_of_mem : ∀ {l : List Task}, (l.map (fun t => t._id)).Nodup → ∀ {t : Task},
    t ∈ l → l.find? (TaskFilter.matches { _id := t._id, user := t.user }) = some t
  | [], _, _, ht => by cases ht
  | x :: xs, hnd, t, ht => by
    rw [List.map_cons, List.nodup_cons] at hnd
    by_cases hx : x._id = t._id
    · have hxt : x = t := by
        rcases List.mem_cons.1 ht with h | h
        · exact h.symm
        · exact absurd (List.mem_map.2 ⟨t, h, hx.symm⟩) hnd.1
      subst hxt
      simp [List.find?_cons, TaskFilter.matches]
    · have hne : t ≠ x := fun h => hx (by rw [h])
      have ht2 : t ∈ xs := by
        rcases List.mem_cons.1 ht with h | h
        · exact absurd h hne
        · exact h
      have ih := find_of_mem hnd.2 ht2
      simp [List.find?_cons, TaskFilter.matches, hx, ih]

/-- The owner finds their own task under the id and owner filter. -/
theorem find_own {db : Db} (hwf : db.WF) {t : Task} (ht : t ∈ db.tasks) :
    db.tasks.find? (TaskFilter.matches { _id := t._id, user := t.user }) = some t :=
  find_of_mem hwf.1 ht

/-- With unique ids, deleting the first match of the id and owner filter of `t`
keeps exactly the documents with another id. -/
theorem eraseP_of_mem : ∀ {l : List Task}, (l.map (fun t => t._id)).Nodup → ∀ {t : Task},
    t ∈ l → l.eraseP (TaskFilter.matches { _id := t._id, user := t.user }) =
      l.filter (fun x => !decide (x._id = t._id))
  | [], _, _, ht => by cases ht
  | x :: xs, hnd, t, ht => by
    rw [List.map_cons, List.nodup_cons] at hnd
    by_cases hx : x._id = t._id
    · have hxt : x = t := by
        rcases List.mem_cons.1 ht with h | h
        · exact h.symm
        · exact absurd (List.mem_map.2 ⟨t, h, hx.symm⟩) hnd.1
      subst hxt
      have hall : ∀ a ∈ xs, (!decide (a._id = x._id)) = true := by
        intro a ha
        have : a._id ≠ x._id := fun h => hnd.1 (List.mem_map.2 ⟨a, ha, h⟩)
        simpa using this
      simp [List.eraseP_cons, TaskFilter.matches, List.filter_cons, List.filter_eq_self.2 hall]
    · have hne : t ≠ x := fun h => hx (by rw [h])
      have ht2 : t ∈ xs := by
        rcases List.mem_cons.1 ht with h | h
        · exact absurd h hne
        · exact h
      have ih := eraseP_of_mem hnd.2 ht2
      simp [List.eraseP_cons, TaskFilter.matches, hx, List.filter_cons, ih]

/-- With unique ids, rewriting the first match of the id and owner filter of `t`
rewrites the document with the id of `t` and no other. -/
theorem updateFirst_of_mem (f : Task → Task) : ∀ {l : List Task},
    (l.map (fun t => t._id)).Nodup → ∀ {t : Task}, t ∈ l →
    updateFirst (TaskFilter.matches { _id := t._id, user := t.user }) f l =
      l.map (fun x => if x._id = t._id then f x else x)
  | [], _, _, ht => by cases ht
  | x :: xs, hnd, t, ht => by
    rw [List.map_cons, List.nodup_cons] at hnd
    by_cases hx : x._id = t._id
    · have hxt : x = t := by
        rcases List.mem_cons.1 ht with h | h
        · exact h.symm
        · exact absurd (List.mem_map.2 ⟨t, h, hx.symm⟩) hnd.1
      subst hxt
      have hall : ∀ a ∈ xs, (if a._id = x._id then f a else a) = a := by
        intro a ha
        have : a._id ≠ x._id := fun h => hnd.1 (List.mem_map.2 ⟨a, ha, h⟩)
        simp [this]
      have hmap : xs.map (fun a => if a._id = x._id then f a else a) = xs := by
        conv_rhs => rw [← List.map_id xs]
        exact List.map_congr_left hall
      simp [updateFirst, TaskFilter.matches, hmap]
    · have hne : t ≠ x := fun h => hx (by rw [h])
      have ht2 : t ∈ xs := by
        rcases List.mem_cons.1 ht with h | h
        · exact absurd h hne
        · exact h
      have ih := updateFirst_of_mem f hnd.2 ht2
      simp [updateFirst, TaskFilter.matches, hx, ih]

/-! ## Ownership isolation -/

/-- C1, as stated, fails: bob (1) sends PUT and PATCH for the task 2 of alice (0)
with a status outside the schema domain; the update validators reject the update
before the store is queried and the handlers answer 400, not 404. -/
theorem ownership_isolation_invalid_body_400 :
    demoDb.WF ∧
    (∃ t ∈ demoDb.tasks, t._id = 2 ∧ t.user = 0) ∧
    (putTodo demoEnv demoDb none 1 2 [("status", "bogus")]).2.status = 400 ∧
    (patchTodo demoEnv demoDb none 1 2 [("status", "bogus")]).2.status = 400 ∧
    (putTodo demoEnv demoDb none 1 2 [("status", "bogus")]).2.status ≠ 404 := by
  refine ⟨?_, ?_, ?_, ?_, ?_⟩
  · unfold Db.WF; decide
  · decide
  · decide
  · decide
  · decide

/-- C1, amended: in a well-formed store, for a task `t` and a caller `b` who is not
its owner, each of GET, PUT, PATCH and DELETE `/todos/:id` with the id of `t`
leaves the store unchanged, sends no task document, and answers 404, 400 or 500,
whatever the body and whether or not the store call throws; and it answers
exactly 404 `Task not found` when the store call does not throw, that is, without
a store fault and, for PUT and PATCH, with an update that passes the update
validators. -/
theorem ownership_isolation (env : Env) (db : Db) (hwf : db.WF) (t : Task)
    (ht : t ∈ db.tasks) (b : Nat) (hb : b ≠ t.user) (fault : Fault) (body : ReqBody) :
    (∀ r ∈ [getTodo db fault b t._id, putTodo env db fault b t._id body,
            patchTodo env db fault b t._id body, deleteTodo db fault b t._id],
        r.1 = db ∧ r.2.body.tasksOf = [] ∧
          (r.2.status = 404 ∨ r.2.status = 400 ∨ r.2.status = 500)) ∧
    (fault = none →
      getTodo db fault b t._id = (db, { status := 404, body := .message "Task not found" }) ∧
      deleteTodo db fault b t._id = (db, { status := 404, body := .message "Task not found" }) ∧
      (env.taskSchema.validateUpdate (taskFieldsOf body) = .ok () →
        putTodo env db fault b t._id body =
          (db, { status := 404, body := .message "Task not found" })) ∧
      (env.taskSchema.validateUpdate (statusOnly body) = .ok () →
        patchTodo env db fault b t._id body =
          (db, { status := 404, body := .message "Task not found" }))) := by
  have key := find_other_owner hwf ht hb
  have hget : ∀ f : Fault, (getTodo db f b t._id).1 = db ∧
      (getTodo db f b t._id).2.body.tasksOf = [] ∧
      ((getTodo db f b t._id).2.status = 404 ∨ (getTodo db f b t._id).2.status = 400 ∨
        (getTodo db f b t._id).2.status = 500) := by
    intro f
    cases f <;> simp [getTodo, Task.findOne, key, Payload.tasksOf]
  have hdel : ∀ f : Fault, (deleteTodo db f b t._id).1 = db ∧
      (deleteTodo db f b t._id).2.body.tasksOf = [] ∧
      ((deleteTodo db f b t._id).2.status = 404 ∨ (deleteTodo db f b t._id).2.status = 400 ∨
        (deleteTodo db f b t._id).2.status = 500) := by
    intro f
    cases f <;> simp [deleteTodo, Task.findOneAndDelete, key, Payload.tasksOf]
  have hupd : ∀ (f : Fault) (u : TaskFields),
      Task.findOneAndUpdate env db f { _id := t._id, user := b } u = .ok (db, none) ∨
      ∃ e, Task.findOneAndUpdate env db f { _id := t._id, user := b } u = .error e := by
    intro f u
    unfold Task.findOneAndUpdate Task.findOne
    cases f <;> cases hv : env.taskSchema.validateUpdate u <;> cases u.isEmpty <;> simp [key]
  have hupd_ok : ∀ (u : TaskFields), env.taskSchema.validateUpdate u = .ok () →
      Task.findOneAndUpdate env db none { _id := t._id, user := b } u = .ok (db, none) := by
    intro u hv
    unfold Task.findOneAndUpdate Task.findOne
    cases u.isEmpty <;> simp [key, hv]
  have hput : (putTodo env db fault b t._id body).1 = db ∧
      (putTodo env db fault b t._id body).2.body.tasksOf = [] ∧
      ((putTodo env db fault b t._id body).2.status = 404 ∨
        (putTodo env db fault b t._id body).2.status = 400 ∨
        (putTodo env db fault b t._id body).2.status = 500) := by
    rcases hupd fault (taskFieldsOf body) with h | ⟨e, h⟩ <;>
      simp [putTodo, h, Payload.tasksOf]
  have hpatch : (patchTodo env db fault b t._id body).1 = db ∧
      (patchTodo env db fault b t._id body).2.body.tasksOf = [] ∧
      ((patchTodo env db fault b t._id body).2.status = 404 ∨
        (patchTodo env db fault b t._id body).2.status = 400 ∨
        (patchTodo env db fault b t._id body).2.status = 500) := by
    rcases hupd fault (statusOnly body) with h | ⟨e, h⟩ <;>
      simp [patchTodo, h, Payload.tasksOf]
  refine ⟨?_, ?_⟩
  · intro r hr
    simp only [List.mem_cons, List.mem_singleton, List.not_mem_nil, or_false] at hr
    rcases hr with rfl | rfl | rfl | rfl
    · exact hget fault
    · exact hput
    · exact hpatch
    · exact hdel fault
  · intro hf
    subst hf
    refine ⟨?_, ?_, ?_, ?_⟩
    · simp [getTodo, Task.findOne, key]
    · simp [deleteTodo, Task.findOneAndDelete, key]
    · intro hv
      simp [putTodo, hupd_ok _ hv]
    · intro hv
      simp [patchTodo, hupd_ok _ hv]

/-- The amended C1 at the demo store: bob asks for the task of alice. -/
theorem ownership_isolation_witness :
    demoDb.WF ∧ (1 : Nat) ≠ 0 ∧
    getTodo demoDb none 1 2 = (demoDb, { status := 404, body := .message "Task not found" }) ∧
    putTodo demoEnv demoDb none 1 2 [("status", "done"), ("title", "mine now")] =
      (demoDb, { status := 404, body := .message "Task not found" }) :=
  have hwf : demoDb.WF := by unfold Db.WF; decide
  have h := ownership_isolation demoEnv demoDb hwf
    { _id := 2, title := some "buy milk", description := none, status := some "open",
      priority := some "low", dueDate := some "2025-01-01", user := 0 }
    (by decide) 1 (by decide) none [("status", "done"), ("title", "mine now")]
  ⟨hwf, by decide, (h.2 rfl).1, (h.2 rfl).2.2.1 rfl⟩

/-! ## Registration and login -/

/-- What a successful `User.create` did. -/
theorem User.create_ok {env : Env} {db db1 : Db} {fault : Fault}
    {username email password : Option String} {user : User}
    (h : User.create env db fault username email password = .ok (db1, user)) :
    ∃ n e p, username = some n ∧ email = some e ∧ password = some p ∧
      user = { _id := db.nextId, username := n, email := e, password := env.hashPassword p } ∧
      db1 = { db with users := db.users ++ [user], nextId := db.nextId + 1 } := by
  unfold User.create at h
  split at h
  · rename_i n e p
    split at h
    · cases fault with
      | some err => simp at h
      | none =>
        simp only [Except.ok.injEq, Prod.mk.injEq] at h
        exact ⟨n, e, p, rfl, rfl, rfl, h.2.symm, by rw [← h.1, ← h.2]⟩
    · simp at h
  · simp at h

/-- The handler of `POST /register` answers 400 when the combined lookup finds a
user. -/
theorem postRegister_of_collision (env : Env) (db : Db) (f2 : Fault) (body : ReqBody)
    (h : ∃ u ∈ db.users,
      some u.email = body.field "email" ∨ some u.username = body.field "username") :
    postRegister env db none f2 body =
      (db, { status := 400, body := .message "User already exists" }) := by
  obtain ⟨u, hu, hm⟩ := h
  have hsome : (db.users.find?
      (UserFilter.emailOrUsername (body.field "email") (body.field "username")).matches).isSome := by
    rw [List.find?_isSome]
    exact ⟨u, hu, by simpa [UserFilter.matches] using hm⟩
  obtain ⟨v, hv⟩ := Option.isSome_iff_exists.1 hsome
  simp [postRegister, User.findOne, hv]

/-- What a registration that answered 201 did: the body held the three members,
no stored user had the email or the username, and one user was appended. -/
theorem postRegister_created {env : Env} {db db1 : Db} {f1 f2 : Fault} {body : ReqBody}
    {view : UserView}
    (h : postRegister env db f1 f2 body = (db1, { status := 201, body := .registered view })) :
    ∃ n e p, body.field "username" = some n ∧ body.field "email" = some e ∧
      body.field "password" = some p ∧
      db.users.find? (UserFilter.emailOrUsername (some e) (some n)).matches = none ∧
      view = { id := db.nextId, username := n, email := e } ∧
      db1 = { db with
        users := db.users ++
          [{ _id := db.nextId, username := n, email := e, password := env.hashPassword p }]
        nextId := db.nextId + 1 } := by
  unfold postRegister User.findOne at h
  cases f1 with
  | some err => simp at h
  | none =>
    simp only at h
    cases hfind : db.users.find?
        (UserFilter.emailOrUsername (body.field "email") (body.field "username")).matches with
    | some v => rw [hfind] at h; simp at h
    | none =>
      rw [hfind] at h
      simp only at h
      cases hc : User.create env db f2 (body.field "username") (body.field "email")
          (body.field "password") with
      | error err => rw [hc] at h; simp at h
      | ok r =>
        obtain ⟨d, user⟩ := r
        rw [hc] at h
        simp only [Prod.mk.injEq, Response.mk.injEq, Payload.registered.injEq, true_and] at h
        obtain ⟨n, e, p, hn, he, hp, hu, hd⟩ := User.create_ok hc
        refine ⟨n, e, p, hn, he, hp, ?_, ?_, ?_⟩
        · rw [← hn, ← he]; exact hfind
        · rw [← h.2, hu]
        · rw [← h.1, hd, hu]

/-- C2: with a lookup that does not throw, `POST /register` answers 400 and leaves
the store unchanged when a stored user has the email or the username of the
request; when none has either and `User.create` does not throw, it appends exactly
the created user and answers 201 with that user; and after a registration that
answered 201, a registration with the same email or with the same username
answers 400 and changes nothing. -/
theorem register_duplicate_identity (env : Env) (db : Db) (f2 : Fault) (body : ReqBody) :
    ((∃ u ∈ db.users,
        some u.email = body.field "email" ∨ some u.username = body.field "username") →
      postRegister env db none f2 body =
        (db, { status := 400, body := .message "User already exists" })) ∧
    ((∀ u ∈ db.users,
        some u.email ≠ body.field "email" ∧ some u.username ≠ body.field "username") →
      ∀ db1 user,
        User.create env db f2 (body.field "username") (body.field "email")
          (body.field "password") = .ok (db1, user) →
        postRegister env db none f2 body =
          (db1, { status := 201,
                  body := .registered
                    { id := user._id, username := user.username, email := user.email } }) ∧
        db1.users = db.users ++ [user] ∧ db1.tasks = db.tasks ∧
        some user.username = body.field "username" ∧ some user.email = body.field "email") ∧
    (∀ f1 db1 view,
      postRegister env db f1 f2 body = (db1, { status := 201, body := .registered view }) →
      ∀ (f3 : Fault) (body2 : ReqBody),
        body2.field "email" = body.field "email" ∨
          body2.field "username" = body.field "username" →
        postRegister env db1 none f3 body2 =
          (db1, { status := 400, body := .message "User already exists" })) := by
  refine ⟨postRegister_of_collision env db f2 body, ?_, ?_⟩
  · intro hnone db1 user hc
    have hfind : db.users.find?
        (UserFilter.emailOrUsername (body.field "email") (body.field "username")).matches
          = none := by
      rw [List.find?_eq_none]
      intro u hu
      have := hnone u hu
      simp [UserFilter.matches, this.1, this.2]
    obtain ⟨n, e, p, hn, he, hp, hu, hd⟩ := User.create_ok hc
    refine ⟨?_, ?_, ?_, ?_, ?_⟩
    · simp [postRegister, User.findOne, hfind, hc]
    · rw [hd]
    · rw [hd]
    · rw [hu, hn]
    · rw [hu, he]
  · intro f1 db1 view h f3 body2 hsame
    obtain ⟨n, e, p, hn, he, hp, _, _, hd⟩ := postRegister_created h
    apply postRegister_of_collision
    refine ⟨{ _id := db.nextId, username := n, email := e, password := env.hashPassword p },
      ?_, ?_⟩
    · rw [hd]; simp
    · rcases hsame with h1 | h1
      · left; rw [h1, he]
      · right; rw [h1, hn]

/-- C2 at the demo store: carol registers, then her email is refused under another
username, and the username of bob is refused under another email. -/
theorem register_duplicate_identity_witness :
    postRegister demoEnv demoDb none none
        [("username", "carol"), ("email", "c@x.com"), ("password", "pw")] =
      ({ demoDb with
          users := demoDb.users ++
            [{ _id := 3, username := "carol", email := "c@x.com", password := "h:pw" }]
          nextId := 4 },
       { status := 201, body := .registered { id := 3, username := "carol", email := "c@x.com" } }) ∧
    postRegister demoEnv demoDb none none
        [("username", "bob"), ("email", "other@x.com"), ("password", "pw")] =
      (demoDb, { status := 400, body := .message "User already exists" }) :=
  have h := register_duplicate_identity demoEnv demoDb none
    [("username", "carol"), ("email", "c@x.com"), ("password", "pw")]
  have h2 := register_duplicate_identity demoEnv demoDb none
    [("username", "bob"), ("email", "other@x.com"), ("password", "pw")]
  ⟨(h.2.1 (by decide) _ _ rfl).1, h2.1 (by decide)⟩

/-- The part of the login uniformity that holds: on any store, a login whose
email matches no user and a login whose email matches a user and whose password
`comparePassword` compares and rejects get the same response, 401 with
`{ message: 'Invalid credentials' }`; neither response carries a token, and the
store is unchanged.  A comparison that throws is not covered. -/
theorem login_failure_uniform (env : Env) (db : Db) (now1 now2 : Nat)
    (body1 body2 : ReqBody) (user : User)
    (hunknown : ∀ u ∈ db.users, some u.email ≠ body1.field "email")
    (hknown : User.findOne db none (.email (body2.field "email")) = .ok (some user))
    (hwrong : env.comparePassword (body2.field "password") user.password = .ok false) :
    postLogin env db none now1 body1 = postLogin env db none now2 body2 ∧
    postLogin env db none now1 body1 =
      (db, { status := 401, body := .message "Invalid credentials" }) ∧
    (postLogin env db none now1 body1).2.body.tokenOf = none ∧
    (postLogin env db none now2 body2).2.body.tokenOf = none := by
  have h1 : postLogin env db none now1 body1 =
      (db, { status := 401, body := .message "Invalid credentials" }) := by
    have hfind : db.users.find? (UserFilter.email (body1.field "email")).matches = none := by
      rw [List.find?_eq_none]
      intro u hu
      simp [UserFilter.matches, hunknown u hu]
    simp [postLogin, User.findOne, hfind]
  have h2 : postLogin env db none now2 body2 =
      (db, { status := 401, body := .message "Invalid credentials" }) := by
    unfold postLogin
    simp only [hknown, hwrong]
  refine ⟨h1.trans h2.symm, h1, ?_, ?_⟩
  · rw [h1]; rfl
  · rw [h2]; rfl

/-- The rejected comparison at the demo store: an unknown email and the wrong
password for alice. -/
theorem login_failure_uniform_witness :
    postLogin demoEnv demoDb none 10 [("email", "nobody@x.com"), ("password", "pw")] =
      postLogin demoEnv demoDb none 20 [("email", "a@x.com"), ("password", "wrong")] ∧
    postLogin demoEnv demoDb none 10 [("email", "nobody@x.com"), ("password", "pw")] =
      (demoDb, { status := 401, body := .message "Invalid credentials" }) :=
  have h := login_failure_uniform demoEnv demoDb 10 20
    [("email", "nobody@x.com"), ("password", "pw")]
    [("email", "a@x.com"), ("password", "wrong")]
    { _id := 0, username := "alice", email := "a@x.com", password := "h:pw" }
    (by decide) rfl rfl
  ⟨h.1, h.2.1⟩

/-! ## Task handlers -/

/-- The update `{ status: s }` rewrites the status of a document and nothing else. -/
theorem statusOnly_apply (body : ReqBody) (s : String) (h : body.field "status" = some s)
    (t : Task) : (statusOnly body).apply t = { t with status := some s } := by
  simp [statusOnly, TaskFields.apply, h]

/-- C4: in a well-formed store, for a task `t` and a body whose `status` member is
`s`, a PATCH by the owner succeeds when `s` is in the status domain of the schema
and the store call does not throw; and whenever it succeeds (status 200), the
stored task with the id of `t` is `t` with status `s` and with its id, owner,
title, description, priority and due date as before, whatever else the body
carries, every other task and every user is unchanged, and the response is the
updated task. -/
theorem patch_changes_only_status (env : Env) (db : Db) (hwf : db.WF) (t : Task)
    (ht : t ∈ db.tasks) (fault : Fault) (body : ReqBody) (s : String)
    (hs : body.field "status" = some s) :
    (env.taskSchema.status.valid s = true →
      (patchTodo env db none t.user t._id body).2.status = 200) ∧
    ((patchTodo env db fault t.user t._id body).2.status = 200 →
      patchTodo env db fault t.user t._id body =
        ({ db with
            tasks := db.tasks.map
              (fun x => if x._id = t._id then { x with status := some s } else x) },
         { status := 200, body := .task { t with status := some s } }) ∧
      ({ t with status := some s } : Task) ∈ (patchTodo env db fault t.user t._id body).1.tasks ∧
      ∀ x ∈ db.tasks, x._id ≠ t._id →
        x ∈ (patchTodo env db fault t.user t._id body).1.tasks) := by
  have hfind := find_own hwf ht
  have hupd := updateFirst_of_mem (statusOnly body).apply hwf.1 ht
  have hne : (statusOnly body).isEmpty = false := by simp [statusOnly, TaskFields.isEmpty, hs]
  have hfun : (fun x : Task => if x._id = t._id then (statusOnly body).apply x else x) =
      (fun x : Task => if x._id = t._id then { x with status := some s } else x) := by
    funext x
    rw [statusOnly_apply body s hs]
  have hval : ∀ r, env.taskSchema.validateUpdate (statusOnly body) = r →
      r = (if env.taskSchema.status.valid s then .ok ()
           else .error ("Validator failed for path " ++ "status")) := by
    intro r hr
    rw [← hr]
    simp only [TaskSchema.validateUpdate, statusOnly, hs, SchemaPath.validateUpdate]
    cases env.taskSchema.status.valid s <;> rfl
  have hok : ∀ f : Fault, (patchTodo env db f t.user t._id body).2.status = 200 →
      patchTodo env db f t.user t._id body =
        ({ db with
            tasks := db.tasks.map
              (fun x => if x._id = t._id then { x with status := some s } else x) },
         { status := 200, body := .task { t with status := some s } }) := by
    intro f h200
    unfold patchTodo Task.findOneAndUpdate at h200 ⊢
    rw [hne] at h200 ⊢
    have hv := hval _ rfl
    cases hvalid : env.taskSchema.status.valid s
    · rw [hvalid] at hv
      simp [hv] at h200
    · rw [hvalid] at hv
      cases f with
      | some e => simp [hv] at h200
      | none => simp [hv, hfind, hupd, hfun, statusOnly_apply body s hs]
  refine ⟨?_, ?_⟩
  · intro hvalid
    unfold patchTodo Task.findOneAndUpdate
    rw [hne]
    have hv := hval _ rfl
    rw [hvalid] at hv
    simp [hv, hfind]
  · intro h200
    have heq := hok fault h200
    refine ⟨heq, ?_, ?_⟩
    · rw [heq]
      exact List.mem_map.2 ⟨t, ht, by simp⟩
    · intro x hx hxt
      rw [heq]
      exact List.mem_map.2 ⟨x, hx, by simp [hxt]⟩

/-- C4 at the demo store: alice patches her task with a body that also carries a
title and a user. -/
theorem patch_changes_only_status_witness :
    demoDb.WF ∧
    patchTodo demoEnv demoDb none 0 2 [("status", "done"), ("title", "x"), ("user", "1")] =
      ({ demoDb with
          tasks := [{ _id := 2, title := some "buy milk", description := none,
                      status := some "done", priority := some "low",
                      dueDate := some "2025-01-01", user := 0 }] },
       { status := 200,
         body := .task { _id := 2, title := some "buy milk", description := none,
                         status := some "done", priority := some "low",
                         dueDate := some "2025-01-01", user := 0 } }) :=
  have hwf : demoDb.WF := by unfold Db.WF; decide
  have h := patch_changes_only_status demoEnv demoDb hwf
    { _id := 2, title := some "buy milk", description := none, status := some "open",
      priority := some "low", dueDate := some "2025-01-01", user := 0 }
    (by decide) none [("status", "done"), ("title", "x"), ("user", "1")] "done" rfl
  ⟨hwf, (h.2 (h.1 (by decide))).1⟩

/-- C10: in a well-formed store, a DELETE by the owner of a task `t`, with a store
call that does not throw, answers 200 and leaves exactly the tasks other than
`t`, each unchanged, and the users; after it, a GET of the same id by the same
caller answers 404, and so does a second DELETE. -/
theorem delete_removes_target (db : Db) (hwf : db.WF) (t : Task) (ht : t ∈ db.tasks) :
    deleteTodo db none t.user t._id =
      ({ db with tasks := db.tasks.filter (fun x => !decide (x._id = t._id)) },
       { status := 200, body := .message "Task deleted successfully" }) ∧
    (∀ x, x ∈ (deleteTodo db none t.user t._id).1.tasks ↔ x ∈ db.tasks ∧ x ≠ t) ∧
    getTodo (deleteTodo db none t.user t._id).1 none t.user t._id =
      ((deleteTodo db none t.user t._id).1,
       { status := 404, body := .message "Task not found" }) ∧
    deleteTodo (deleteTodo db none t.user t._id).1 none t.user t._id =
      ((deleteTodo db none t.user t._id).1,
       { status := 404, body := .message "Task not found" }) := by
  have hfind := find_own hwf ht
  have herase := eraseP_of_mem hwf.1 ht
  have hdel : deleteTodo db none t.user t._id =
      ({ db with tasks := db.tasks.filter (fun x => !decide (x._id = t._id)) },
       { status := 200, body := .message "Task deleted successfully" }) := by
    simp [deleteTodo, Task.findOneAndDelete, hfind, herase]
  have hgone : (db.tasks.filter (fun x => !decide (x._id = t._id))).find?
      (TaskFilter.matches { _id := t._id, user := t.user }) = none := by
    rw [List.find?_eq_none]
    intro x hx hm
    simp only [List.mem_filter, Bool.not_eq_true', decide_eq_false_iff_not] at hx
    simp only [TaskFilter.matches, Bool.and_eq_true, decide_eq_true_eq] at hm
    exact hx.2 hm.1
  refine ⟨hdel, ?_, ?_, ?_⟩
  · intro x
    rw [hdel]
    simp only [List.mem_filter, Bool.not_eq_true', decide_eq_false_iff_not]
    constructor
    · rintro ⟨hx, hne⟩
      exact ⟨hx, fun h => hne (by rw [h])⟩
    · rintro ⟨hx, hne⟩
      exact ⟨hx, fun h => hne (hwf.eq_of_id_eq hx ht h)⟩
  · rw [hdel]
    simp [getTodo, Task.findOne, hgone]
  · rw [hdel]
    simp [deleteTodo, Task.findOneAndDelete, hgone]

/-- C10 at the demo store: alice deletes her task. -/
theorem delete_removes_target_witness :
    demoDb.WF ∧
    deleteTodo demoDb none 0 2 =
      ({ demoDb with tasks := [] },
       { status := 200, body := .message "Task deleted successfully" }) ∧
    getTodo (deleteTodo demoDb none 0 2).1 none 0 2 =
      ((deleteTodo demoDb none 0 2).1, { status := 404, body := .message "Task not found" }) :=
  have hwf : demoDb.WF := by unfold Db.WF; decide
  have h := delete_removes_target demoDb hwf
    { _id := 2, title := some "buy milk", description := none, status := some "open",
      priority := some "low", dueDate := some "2025-01-01", user := 0 }
    (by decide)
  ⟨hwf, h.1, h.2.2.1⟩

/-- What a `POST /todos` that answered 201 did: it appended the document it sent,
which has the next id of the store and the caller as owner. -/
theorem postTodos_created {env : Env} {db db1 : Db} {fault : Fault} {uid : Nat}
    {body : ReqBody} {t : Task}
    (h : postTodos env db fault uid body = (db1, { status := 201, body := .task t })) :
    t = Task.construct env db (taskFieldsOf body) uid ∧
      db1 = { db with tasks := db.tasks ++ [t], nextId := db.nextId + 1 } := by
  unfold postTodos Task.save at h
  simp only at h
  cases hv : env.taskSchema.validate (Task.construct env db (taskFieldsOf body) uid) with
  | error e => rw [hv] at h; simp at h
  | ok u =>
    rw [hv] at h
    cases fault with
    | some e => simp at h
    | none =>
      simp only [Prod.mk.injEq, Response.mk.injEq, Payload.task.injEq, true_and] at h
      exact ⟨h.2.symm, by rw [← h.1, h.2]⟩

/-- C8: with a store call that does not throw, `GET /todos` answers 200 with the
tasks of the store whose owner is the caller, in store order: every task of the
caller is in the list and no task of another owner is; the store is unchanged;
and when the caller owns no task and a `POST /todos` of theirs answers 201 with a
task, the list right after it is exactly that one task. -/
theorem list_returns_own_tasks (env : Env) (db : Db) (u : Nat) :
    getTodos db none u =
      (db, { status := 200, body := .tasks (db.tasks.filter (fun t => decide (t.user = u))) }) ∧
    (∀ t, t ∈ (getTodos db none u).2.body.tasksOf ↔ t ∈ db.tasks ∧ t.user = u) ∧
    (∀ (fault : Fault) (body : ReqBody) (db1 : Db) (t : Task),
      (∀ x ∈ db.tasks, x.user ≠ u) →
      postTodos env db fault u body = (db1, { status := 201, body := .task t }) →
      getTodos db1 none u = (db1, { status := 200, body := .tasks [t] })) := by
  have hget : ∀ d : Db, getTodos d none u =
      (d, { status := 200, body := .tasks (d.tasks.filter (fun t => decide (t.user = u))) }) := by
    intro d
    simp [getTodos, Task.find]
  refine ⟨hget db, ?_, ?_⟩
  · intro t
    rw [hget db]
    simp [Payload.tasksOf, List.mem_filter]
  · intro fault body db1 t hnone hpost
    obtain ⟨ht, hd⟩ := postTodos_created hpost
    have howner : t.user = u := by rw [ht]; rfl
    have hold : db.tasks.filter (fun t => decide (t.user = u)) = [] := by
      rw [List.filter_eq_nil_iff]
      intro x hx
      simpa using hnone x hx
    rw [hget db1, hd]
    simp [List.filter_append, hold, howner]

/-- C8 at the demo store: bob, who owns no task, creates one and lists his tasks. -/
theorem list_returns_own_tasks_witness :
    getTodos (postTodos demoEnv demoDb none 1 [("title", "write report")]).1 none 1 =
      ((postTodos demoEnv demoDb none 1 [("title", "write report")]).1,
       { status := 200,
         body := .tasks [{ _id := 3, title := some "write report", description := none,
                           status := some "open", priority := some "medium", dueDate := none,
                           user := 1 }] }) :=
  (list_returns_own_tasks demoEnv demoDb 1).2.2 none [("title", "write report")] _ _
    (by decide) rfl

/-! ## Store failures -/

/-- C7, as stated, fails: when the store call of `POST /todos`, `PUT /todos/:id` or
`PATCH /todos/:id` throws, the handler answers 400, not 500. -/
theorem store_failure_on_write_is_400 :
    Task.save demoEnv demoDb (some "connection lost")
        (Task.construct demoEnv demoDb (taskFieldsOf [("title", "x")]) 0) =
      .error "connection lost" ∧
    postTodos demoEnv demoDb (some "connection lost") 0 [("title", "x")] =
      (demoDb, { status := 400, body := .failure "Error creating task" "connection lost" }) ∧
    putTodo demoEnv demoDb (some "connection lost") 0 2 [("title", "x")] =
      (demoDb, { status := 400, body := .failure "Error updating task" "connection lost" }) ∧
    patchTodo demoEnv demoDb (some "connection lost") 0 2 [("status", "done")] =
      (demoDb, { status := 400, body := .failure "Error updating task" "connection lost" }) :=
  ⟨rfl, rfl, rfl, rfl⟩

/-- C7, amended: when a store call of a handler throws an error `e`, the handler
leaves the store unchanged and answers with the single object
`{ message, error: e }`, under status 500 for register, login, list, get and
delete, and under status 400 for create, update and patch. -/
theorem store_failure_response (env : Env) (db : Db) (e : String) :
    (∀ f1 f2 body,
      User.findOne db f1 (.emailOrUsername (body.field "email") (body.field "username")) =
        .error e →
      postRegister env db f1 f2 body =
        (db, { status := 500, body := .failure "Error creating user" e })) ∧
    (∀ f1 f2 body,
      User.findOne db f1 (.emailOrUsername (body.field "email") (body.field "username")) =
        .ok none →
      User.create env db f2 (body.field "username") (body.field "email")
        (body.field "password") = .error e →
      postRegister env db f1 f2 body =
        (db, { status := 500, body := .failure "Error creating user" e })) ∧
    (∀ fault now body,
      User.findOne db fault (.email (body.field "email")) = .error e →
      postLogin env db fault now body =
        (db, { status := 500, body := .failure "Error logging in" e })) ∧
    (∀ fault uid, Task.find db fault uid = .error e →
      getTodos db fault uid = (db, { status := 500, body := .failure "Error fetching tasks" e })) ∧
    (∀ fault uid id, Task.findOne db fault { _id := id, user := uid } = .error e →
      getTodo db fault uid id =
        (db, { status := 500, body := .failure "Error fetching task" e })) ∧
    (∀ fault uid id, Task.findOneAndDelete db fault { _id := id, user := uid } = .error e →
      deleteTodo db fault uid id =
        (db, { status := 500, body := .failure "Error deleting task" e })) ∧
    (∀ fault uid body,
      Task.save env db fault (Task.construct env db (taskFieldsOf body) uid) = .error e →
      postTodos env db fault uid body =
        (db, { status := 400, body := .failure "Error creating task" e })) ∧
    (∀ fault uid id body,
      Task.findOneAndUpdate env db fault { _id := id, user := uid } (taskFieldsOf body) =
        .error e →
      putTodo env db fault uid id body =
        (db, { status := 400, body := .failure "Error updating task" e })) ∧
    (∀ fault uid id body,
      Task.findOneAndUpdate env db fault { _id := id, user := uid } (statusOnly body) =
        .error e →
      patchTodo env db fault uid id body =
        (db, { status := 400, body := .failure "Error updating task" e })) := by
  refine ⟨?_, ?_, ?_, ?_, ?_, ?_, ?_, ?_, ?_⟩
  · intro f1 f2 body h
    simp only [postRegister, h]
  · intro f1 f2 body h1 h2
    simp only [postRegister, h1, h2]
  · intro fault now body h
    simp only [postLogin, h]
  · intro fault uid h
    simp only [getTodos, h]
  · intro fault uid id h
    simp only [getTodo, h]
  · intro fault uid id h
    simp only [deleteTodo, h]
  · intro fault uid body h
    simp only [postTodos, h]
  · intro fault uid id body h
    simp only [putTodo, h]
  · intro fault uid id body h
    simp only [patchTodo, h]

/-- The amended C7 at the demo store: the store is unreachable during a listing
and during a creation. -/
theorem store_failure_response_witness :
    getTodos demoDb (some "connection lost") 0 =
      (demoDb, { status := 500, body := .failure "Error fetching tasks" "connection lost" }) ∧
    postTodos demoEnv demoDb (some "connection lost") 0 [("title", "x")] =
      (demoDb, { status := 400, body := .failure "Error creating task" "connection lost" }) :=
  have h := store_failure_response demoEnv demoDb "connection lost"
  ⟨h.2.2.2.1 (some "connection lost") 0 rfl,
   h.2.2.2.2.2.2.1 (some "connection lost") 0 [("title", "x")] rfl⟩

/-! ## The session guard -/

/-- C9, as stated, fails: `GET /` is registered in both files, is neither
`POST /register` nor `POST /login`, and has no guard, so its handler is reached
by a request the guard would reject. -/
theorem root_route_unguarded :
    ({ method := .GET, path := "/", guarded := false } : Route) ∈ routes ∧
    ({ method := .GET, path := "/", guarded := false } : Route) ∈ routesSrc ∧
    ({ method := .GET, path := "/", guarded := false } : Route) ∉ identityRoutes ∧
    Route.dispatch { method := .GET, path := "/", guarded := false }
        (fun _ => .error { status := 401, body := .message "Unauthorized" }) none
        (fun _ => getRoot demoDb) =
      .ok (demoDb, { status := 200, body := .text "Hello, worrld!" }) := by
  refine ⟨by decide, by decide, by decide, rfl⟩

/-- C9, amended: every route registered by `index.js` or by `src/index.js`, other
than `GET /`, `POST /register` and `POST /login`, has the guard before its
handler, and the handler of such a route runs only when the guard passed the
request on, and then with the identity the guard attached. -/
theorem guard_on_every_other_route (r : Route) (hr : r ∈ routes ∨ r ∈ routesSrc)
    (hroot : r ≠ { method := .GET, path := "/", guarded := false })
    (hid : r ∉ identityRoutes) :
    r.guarded = true ∧
    ∀ (α : Type) (guard : Guard) (token : Option Token) (handler : Option Nat → α) (a : α),
      r.dispatch guard token handler = .ok a →
      ∃ uid, guard token = .ok uid ∧ a = handler (some uid) := by
  have hg : r.guarded = true := by
    simp only [routes, routesSrc, identityRoutes, List.mem_cons, List.mem_singleton,
      List.not_mem_nil, or_false, not_or] at hr hid
    rcases hr with (h | h | h | h | h | h | h | h | h | h) | (h | h | h | h | h)
    all_goals first
      | exact absurd h hroot
      | exact absurd h hid.1
      | exact absurd h hid.2
      | (rw [h])
  refine ⟨hg, ?_⟩
  intro α guard token handler a h
  unfold Route.dispatch at h
  rw [if_pos hg] at h
  cases hgd : guard token with
  | error res => rw [hgd] at h; cases h
  | ok uid =>
    rw [hgd] at h
    simp only [Except.ok.injEq] at h
    exact ⟨uid, rfl, h.symm⟩

/-- The amended C9 at `DELETE /todos/:id`. -/
theorem guard_on_every_other_route_witness :
    ({ method := .DELETE, path := "/todos/:id", guarded := true } : Route) ∈ routes ∧
    ({ method := .DELETE, path := "/todos/:id", guarded := true } : Route).guarded = true :=
  ⟨by decide,
   (guard_on_every_other_route { method := .DELETE, path := "/todos/:id", guarded := true }
     (Or.inl (by decide)) (by decide) (by decide)).1⟩

/-! ## The owner of a task -/

/-- Rewriting keeps the ids in place when the function keeps the id. -/
theorem map_id_updateFirst (p : Task → Bool) (f : Task → Task)
    (hf : ∀ x, (f x)._id = x._id) : ∀ l : List Task,
    (updateFirst p f l).map (fun t => t._id) = l.map (fun t => t._id)
  | [] => rfl
  | x :: xs => by
    unfold updateFirst
    split
    · simp [hf x]
    · simp [map_id_updateFirst p f hf xs]

/-- A document of the rewritten list is an old document or the image of one. -/
theorem mem_updateFirst (p : Task → Bool) (f : Task → Task) : ∀ (l : List Task) (t : Task),
    t ∈ updateFirst p f l → t ∈ l ∨ ∃ x ∈ l, t = f x
  | [], t, h => by cases h
  | x :: xs, t, h => by
    unfold updateFirst at h
    split at h
    · rcases List.mem_cons.1 h with h1 | h1
      · exact Or.inr ⟨x, List.mem_cons_self _ _, h1⟩
      · exact Or.inl (List.mem_cons_of_mem _ h1)
    · rcases List.mem_cons.1 h with h1 | h1
      · exact Or.inl (h1 ▸ List.mem_cons_self _ _)
      · rcases mem_updateFirst p f xs t h1 with h2 | ⟨y, hy, h2⟩
        · exact Or.inl (List.mem_cons_of_mem _ h2)
        · exact Or.inr ⟨y, List.mem_cons_of_mem _ hy, h2⟩

/-- An update keeps the id and the owner of the document. -/
theorem TaskFields.apply_keeps (u : TaskFields) (x : Task) :
    (u.apply x)._id = x._id ∧ (u.apply x).user = x.user := ⟨rfl, rfl⟩

/-- The store after `findOneAndUpdate` is a successor of the store before. -/
theorem Task.findOneAndUpdate_successor (env : Env) (db : Db) (fault : Fault) (f : TaskFilter)
    (u : TaskFields) (d : Db) (r : Option Task)
    (h : Task.findOneAndUpdate env db fault f u = .ok (d, r)) : db.Successor d := by
  unfold Task.findOneAndUpdate Task.findOne at h
  split at h
  · cases fault with
    | some e => simp at h
    | none =>
      simp only [Except.ok.injEq, Prod.mk.injEq] at h
      exact Or.inl h.1.symm
  · cases hv : env.taskSchema.validateUpdate u with
    | error e => rw [hv] at h; simp at h
    | ok v =>
      rw [hv] at h
      cases fault with
      | some e => simp at h
      | none =>
        simp only at h
        cases hfind : db.tasks.find? f.matches with
        | none =>
          rw [hfind] at h
          simp only [Except.ok.injEq, Prod.mk.injEq] at h
          exact Or.inl h.1.symm
        | some t =>
          rw [hfind] at h
          simp only [Except.ok.injEq, Prod.mk.injEq] at h
          exact Or.inr (Or.inr (Or.inr (Or.inl
            ⟨f.matches, u.apply, u.apply_keeps, h.1.symm⟩)))

/-- The store after any handler invocation is a successor of the store before. -/
theorem Call.exec_successor (env : Env) (db : Db) (c : Call) :
    db.Successor (c.exec env db).1 := by
  cases c with
  | register f1 f2 body =>
    simp only [Call.exec]
    unfold postRegister User.findOne
    cases f1 with
    | some e => exact Or.inl rfl
    | none =>
      simp only
      cases db.users.find?
          (UserFilter.emailOrUsername (body.field "email") (body.field "username")).matches with
      | some v => exact Or.inl rfl
      | none =>
        simp only
        cases hc : User.create env db f2 (body.field "username") (body.field "email")
            (body.field "password") with
        | error e => exact Or.inl rfl
        | ok r =>
          obtain ⟨d, user⟩ := r
          obtain ⟨n, e, p, _, _, _, _, hd⟩ := User.create_ok hc
          exact Or.inr (Or.inl ⟨user, hd⟩)
  | login fault now body =>
    simp only [Call.exec]
    unfold postLogin
    simp only
    cases User.findOne db fault (.email (body.field "email")) with
    | error e => exact Or.inl rfl
    | ok r =>
      cases r with
      | none => exact Or.inl rfl
      | some user =>
        simp only
        cases env.comparePassword (body.field "password") user.password with
        | error e => exact Or.inl rfl
        | ok b =>
          cases b with
          | false => exact Or.inl rfl
          | true =>
            simp only
            cases jwt.sign env user._id now with
            | error e => exact Or.inl rfl
            | ok token => exact Or.inl rfl
  | create fault uid body =>
    simp only [Call.exec]
    unfold postTodos Task.save
    simp only
    cases env.taskSchema.validate (Task.construct env db (taskFieldsOf body) uid) with
    | error e => exact Or.inl rfl
    | ok v =>
      cases fault with
      | some e => exact Or.inl rfl
      | none => exact Or.inr (Or.inr (Or.inl ⟨_, rfl, rfl⟩))
  | list fault uid =>
    simp only [Call.exec]
    unfold getTodos
    cases Task.find db fault uid <;> exact Or.inl rfl
  | get fault uid id =>
    simp only [Call.exec]
    unfold getTodo
    cases Task.findOne db fault { _id := id, user := uid } with
    | error e => exact Or.inl rfl
    | ok r => cases r <;> exact Or.inl rfl
  | update fault uid id body =>
    simp only [Call.exec]
    unfold putTodo
    cases h : Task.findOneAndUpdate env db fault { _id := id, user := uid }
        (taskFieldsOf body) with
    | error e => exact Or.inl rfl
    | ok r =>
      obtain ⟨d, o⟩ := r
      cases o with
      | none => exact Or.inl rfl
      | some t => exact Task.findOneAndUpdate_successor env db fault _ _ d _ h
  | patch fault uid id body =>
    simp only [Call.exec]
    unfold patchTodo
    cases h : Task.findOneAndUpdate env db fault { _id := id, user := uid }
        (statusOnly body) with
    | error e => exact Or.inl rfl
    | ok r =>
      obtain ⟨d, o⟩ := r
      cases o with
      | none => exact Or.inl rfl
      | some t => exact Task.findOneAndUpdate_successor env db fault _ _ d _ h
  | delete fault uid id =>
    simp only [Call.exec]
    unfold deleteTodo Task.findOneAndDelete
    cases fault with
    | some e => exact Or.inl rfl
    | none =>
      simp only
      cases db.tasks.find? (TaskFilter.matches { _id := id, user := uid }) with
      | none => exact Or.inl rfl
      | some t => exact Or.inr (Or.inr (Or.inr (Or.inr ⟨_, rfl⟩)))

/-- A successor of a well-formed store is well-formed. -/
theorem Db.Successor.wf {db d : Db} (h : db.Successor d) (hwf : db.WF) : d.WF := by
  rcases h with h | ⟨u, h⟩ | ⟨t, ht, h⟩ | ⟨p, f, hf, h⟩ | ⟨p, h⟩
  · rw [h]; exact hwf
  · rw [h]
    exact ⟨hwf.1, fun t ht => Nat.lt_succ_of_lt (hwf.2 t ht)⟩
  · rw [h]
    refine ⟨?_, ?_⟩
    · simp only [List.map_append, List.map_cons, List.map_nil]
      rw [List.nodup_append]
      refine ⟨hwf.1, List.nodup_singleton _, ?_⟩
      intro a ha hb
      rw [List.mem_singleton] at hb
      obtain ⟨x, hx, hxa⟩ := List.mem_map.1 ha
      have := hwf.2 x hx
      omega
    · intro x hx
      simp only [List.mem_append, List.mem_singleton] at hx
      rcases hx with hx | hx
      · exact Nat.lt_succ_of_lt (hwf.2 x hx)
      · simp only [hx, ht]; exact Nat.lt_succ_self _
  · rw [h]
    refine ⟨?_, ?_⟩
    · simp only
      rw [map_id_updateFirst p f (fun x => (hf x).1)]
      exact hwf.1
    · intro x hx
      rcases mem_updateFirst p f db.tasks x hx with hx | ⟨y, hy, hxy⟩
      · exact hwf.2 x hx
      · rw [hxy, (hf y).1]; exact hwf.2 y hy
  · rw [h]
    refine ⟨?_, ?_⟩
    · exact hwf.1.sublist ((List.eraseP_sublist db.tasks).map _)
    · intro x hx
      exact hwf.2 x ((List.eraseP_sublist db.tasks).subset hx)

/-- A successor of a store keeps the owner of every task it keeps. -/
theorem Db.Successor.ownersKept {db d : Db} (h : db.Successor d) : db.OwnersKept d := by
  rcases h with h | ⟨u, h⟩ | ⟨t, ht, h⟩ | ⟨p, f, hf, h⟩ | ⟨p, h⟩
  · rw [h]
    exact ⟨Nat.le_refl _, fun t ht => Or.inl ⟨t, ht, rfl, rfl⟩⟩
  · rw [h]
    exact ⟨Nat.le_succ _, fun t ht => Or.inl ⟨t, ht, rfl, rfl⟩⟩
  · rw [h]
    refine ⟨Nat.le_succ _, ?_⟩
    intro x hx
    simp only [List.mem_append, List.mem_singleton] at hx
    rcases hx with hx | hx
    · exact Or.inl ⟨x, hx, rfl, rfl⟩
    · exact Or.inr (by rw [hx, ht])
  · rw [h]
    refine ⟨Nat.le_refl _, ?_⟩
    intro x hx
    rcases mem_updateFirst p f db.tasks x hx with hx | ⟨y, hy, hxy⟩
    · exact Or.inl ⟨x, hx, rfl, rfl⟩
    · exact Or.inl ⟨y, hy, by rw [hxy, (hf y).1], by rw [hxy, (hf y).2]⟩
  · rw [h]
    refine ⟨Nat.le_refl _, ?_⟩
    intro x hx
    exact Or.inl ⟨x, (List.eraseP_sublist db.tasks).subset hx, rfl, rfl⟩

/-- Keeping owners composes along two steps. -/
theorem Db.OwnersKept.trans {a b c : Db} (h1 : a.OwnersKept b) (h2 : b.OwnersKept c) :
    a.OwnersKept c := by
  refine ⟨Nat.le_trans h1.1 h2.1, ?_⟩
  intro t3 ht3
  rcases h2.2 t3 ht3 with ⟨t2, ht2, hid, hu⟩ | hnew
  · rcases h1.2 t2 ht2 with ⟨t1, ht1, hid1, hu1⟩ | hnew
    · exact Or.inl ⟨t1, ht1, hid1.trans hid, hu1.trans hu⟩
    · exact Or.inr (hid ▸ hnew)
  · exact Or.inr (Nat.le_trans h1.1 hnew)

/-- The empty store is well-formed. -/
theorem Db.empty_wf : Db.empty.WF := by
  unfold Db.WF Db.empty
  simp

/-- Every handler invocation keeps the store well-formed. -/
theorem Call.exec_wf (env : Env) (db : Db) (c : Call) (hwf : db.WF) : (c.exec env db).1.WF :=
  (c.exec_successor env db).wf hwf

/-- Every sequence of handler invocations keeps the store well-formed. -/
theorem run_wf (env : Env) : ∀ (calls : List Call) (db : Db), db.WF → (run env db calls).WF
  | [], _, hwf => hwf
  | c :: cs, db, hwf => run_wf env cs _ (c.exec_wf env db hwf)

/-- Every sequence of handler invocations keeps the owner of every task it keeps. -/
theorem run_ownersKept (env : Env) : ∀ (calls : List Call) (db : Db),
    db.OwnersKept (run env db calls)
  | [], _ => ⟨Nat.le_refl _, fun t ht => Or.inl ⟨t, ht, rfl, rfl⟩⟩
  | c :: cs, db => (c.exec_successor env db).ownersKept.trans (run_ownersKept env cs _)

/-- C6: in a well-formed store, a task that `POST /todos` creates for the caller
`uid` has owner `uid` whatever the body holds, a member `user` included, and an
id no stored task has; and after every sequence of handler invocations, by any
callers with any bodies, a task still in the store under the id of a task `t` of
the earlier store, the created one in particular, has the owner of `t`. -/
theorem task_owner_invariant (env : Env) (db : Db) (hwf : db.WF) :
    (∀ (fault : Fault) (uid : Nat) (body : ReqBody) (db1 : Db) (t : Task),
      postTodos env db fault uid body = (db1, { status := 201, body := .task t }) →
      t.user = uid ∧ t ∈ db1.tasks ∧ (∀ x ∈ db.tasks, x._id ≠ t._id) ∧
      ∀ (calls : List Call), ∀ t2 ∈ (run env db1 calls).tasks, t2._id = t._id → t2.user = uid) ∧
    (∀ (calls : List Call) (t : Task), t ∈ db.tasks →
      ∀ t2 ∈ (run env db calls).tasks, t2._id = t._id → t2.user = t.user) := by
  have main : ∀ (d : Db), d.WF → ∀ (calls : List Call) (t : Task), t ∈ d.tasks →
      ∀ t2 ∈ (run env d calls).tasks, t2._id = t._id → t2.user = t.user := by
    intro d hd calls t ht t2 ht2 hid
    rcases (run_ownersKept env calls d).2 t2 ht2 with ⟨t0, ht0, hid0, hu0⟩ | hnew
    · have : t0 = t := hd.eq_of_id_eq ht0 ht (hid0.trans hid)
      rw [← hu0, this]
    · have := hd.2 t ht
      omega
  refine ⟨?_, main db hwf⟩
  intro fault uid body db1 t hpost
  obtain ⟨ht, hd⟩ := postTodos_created hpost
  have howner : t.user = uid := by rw [ht]; rfl
  have hid : t._id = db.nextId := by rw [ht]; rfl
  have hwf1 : db1.WF := by
    have := Call.exec_wf env db (.create fault uid body) hwf
    simp only [Call.exec, hpost] at this
    exact this
  have hmem : t ∈ db1.tasks := by rw [hd]; simp
  refine ⟨howner, hmem, ?_, ?_⟩
  · intro x hx hxt
    have := hwf.2 x hx
    omega
  · intro calls t2 ht2 h2
    rw [← howner]
    exact main db1 hwf1 calls t hmem t2 ht2 h2

/-- C6 at the demo store: bob creates a task with a body that names alice as
`user`; alice then tries to update, patch and delete it, and bob patches it. -/
theorem task_owner_invariant_witness :
    demoDb.WF ∧
    (postTodos demoEnv demoDb none 1 [("title", "t"), ("user", "0")]).2 =
      { status := 201,
        body := .task { _id := 3, title := some "t", description := none,
                        status := some "open", priority := some "medium", dueDate := none,
                        user := 1 } } ∧
    ∀ t2 ∈ (run demoEnv (postTodos demoEnv demoDb none 1 [("title", "t"), ("user", "0")]).1
        [.update none 0 3 [("title", "stolen"), ("user", "0")],
         .patch none 0 3 [("status", "done")],
         .delete none 0 3,
         .patch none 1 3 [("status", "done"), ("user", "0")]]).tasks,
      t2._id = 3 → t2.user = 1 :=
  have hwf : demoDb.WF := by unfold Db.WF; decide
  have h := (task_owner_invariant demoEnv demoDb hwf).1 none 1 [("title", "t"), ("user", "0")]
    _ _ rfl
  ⟨hwf, rfl, h.2.2.2 _⟩

/-! ## Register, then log in -/

/-- A successor of a store keeps its users, in order, before any new one. -/
theorem Db.Successor.users {db d : Db} (h : db.Successor d) :
    ∃ extra, d.users = db.users ++ extra := by
  rcases h with h | ⟨u, h⟩ | ⟨t, _, h⟩ | ⟨p, f, _, h⟩ | ⟨p, h⟩
  · exact ⟨[], by rw [h]; simp⟩
  · exact ⟨[u], by rw [h]⟩
  · exact ⟨[], by rw [h]; simp⟩
  · exact ⟨[], by rw [h]; simp⟩
  · exact ⟨[], by rw [h]; simp⟩

/-- Every sequence of handler invocations keeps the users of the store, in order,
before any new one. -/
theorem run_users (env : Env) : ∀ (calls : List Call) (db : Db),
    ∃ extra, (run env db calls).users = db.users ++ extra
  | [], db => ⟨[], by simp [run]⟩
  | c :: cs, db => by
    obtain ⟨e1, h1⟩ := (c.exec_successor env db).users
    obtain ⟨e2, h2⟩ := run_users env cs (c.exec env db).1
    exact ⟨e1 ++ e2, by rw [run, h2, h1, List.append_assoc]⟩

/-- C5: when `POST /register` answered 201 with a user, a signing secret is
configured and `comparePassword` accepts a password against its own hash, a login
with the same email and password, right after the registration or after any
further handler invocations, answers 200 with that same user object and a token
whose payload carries the id of that user and an expiry one day after `now`, and
which verifies at any time before that expiry. -/
theorem register_login_roundtrip (env : Env) (db db1 : Db) (f1 f2 : Fault)
    (body body2 : ReqBody) (now : Nat) (view : UserView) (key : String)
    (hkey : env.jwt_secret = some key)
    (hhash : ∀ p, env.comparePassword (some p) (env.hashPassword p) = .ok true)
    (hreg : postRegister env db f1 f2 body =
      (db1, { status := 201, body := .registered view }))
    (hemail : body2.field "email" = body.field "email")
    (hpw : body2.field "password" = body.field "password") (calls : List Call) :
    ∃ token, postLogin env (run env db1 calls) none now body2 =
        (run env db1 calls, { status := 200, body := .loggedIn token view }) ∧
      token.payload = { userId := view.id, iat := now, exp := now + oneDay } ∧
      ∀ later, later < now + oneDay →
        jwt.verify env token later =
          some { userId := view.id, iat := now, exp := now + oneDay } := by
  obtain ⟨n, e, p, hn, he, hp, hfind, hview, hd⟩ := postRegister_created hreg
  have hold : db.users.find? (UserFilter.email (some e)).matches = none := by
    rw [List.find?_eq_none] at hfind ⊢
    intro u hu hm
    apply hfind u hu
    simp only [UserFilter.matches, decide_eq_true_eq] at hm
    simp [UserFilter.matches, hm]
  obtain ⟨extra, hextra⟩ := run_users env calls db1
  have hlookup : User.findOne (run env db1 calls) none (.email (body2.field "email")) =
      .ok (some { _id := db.nextId, username := n, email := e,
                  password := env.hashPassword p }) := by
    rw [hemail, he]
    unfold User.findOne
    rw [hextra, hd]
    simp [hold, UserFilter.matches]
  refine ⟨{ payload := { userId := view.id, iat := now, exp := now + oneDay },
            signature := env.hmac key { userId := view.id, iat := now, exp := now + oneDay } },
    ?_, rfl, ?_⟩
  · unfold postLogin
    simp only [hlookup, hpw, hp, hhash, jwt.sign, hkey, hview]
  · intro later hlater
    simp [jwt.verify, hkey, hlater]

/-- C5 at the demo store: carol registers, creates a task, and logs in at time
100. -/
theorem register_login_roundtrip_witness :
    ∃ token, postLogin demoEnv
        (run demoEnv (postRegister demoEnv demoDb none none
          [("username", "carol"), ("email", "c@x.com"), ("password", "pw")]).1
          [.create none 3 [("title", "first")]]) none 100
        [("email", "c@x.com"), ("password", "pw")] =
        (run demoEnv (postRegister demoEnv demoDb none none
          [("username", "carol"), ("email", "c@x.com"), ("password", "pw")]).1
          [.create none 3 [("title", "first")]],
         { status := 200,
           body := .loggedIn token { id := 3, username := "carol", email := "c@x.com" } }) ∧
      token.payload = { userId := 3, iat := 100, exp := 100 + oneDay } ∧
      ∀ later, later < 100 + oneDay →
        jwt.verify demoEnv token later = some { userId := 3, iat := 100, exp := 100 + oneDay } :=
  register_login_roundtrip demoEnv demoDb _ none none
    [("username", "carol"), ("email", "c@x.com"), ("password", "pw")]
    [("email", "c@x.com"), ("password", "pw")] 100
    { id := 3, username := "carol", email := "c@x.com" } "s3cret" rfl
    (fun p => by simp [demoEnv]) rfl rfl rfl [.create none 3 [("title", "first")]]

/-! ## Login with a comparison that throws -/

/-- When the lookup finds a user and `comparePassword` throws, the `catch` of
`POST /login` answers 500 with the text of the error. -/
theorem postLogin_of_compare_throws (env : Env) (db : Db) (now : Nat) (body : ReqBody)
    (user : User) (e : String)
    (hknown : User.findOne db none (.email (body.field "email")) = .ok (some user))
    (hthrow : env.comparePassword (body.field "password") user.password = .error e) :
    postLogin env db none now body =
      (db, { status := 500, body := .failure "Error logging in" e }) := by
  unfold postLogin
  simp only [hknown, hthrow]

/-- C3, failing input: alice is registered under `a@x.com` and nobody under
`nobody@x.com`.  A login with the email of alice and no `password` member does not
verify, since `comparePassword` throws on it, and the `catch` answers 500
`Error logging in`; the same body with the unknown email answers 401
`Invalid credentials`.  The two responses differ in status and in body, so the
response tells a registered email from an unregistered one. -/
theorem login_missing_password_distinguishes :
    (∃ u ∈ demoDb.users, u.email = "a@x.com") ∧
    (∀ u ∈ demoDb.users, u.email ≠ "nobody@x.com") ∧
    postLogin demoEnv demoDb none 10 [("email", "a@x.com")] =
      (demoDb, { status := 500,
                 body := .failure "Error logging in" "Illegal arguments: undefined, string" }) ∧
    postLogin demoEnv demoDb none 10 [("email", "nobody@x.com")] =
      (demoDb, { status := 401, body := .message "Invalid credentials" }) ∧
    postLogin demoEnv demoDb none 10 [("email", "a@x.com")] ≠
      postLogin demoEnv demoDb none 10 [("email", "nobody@x.com")] := by
  refine ⟨by decide, by decide, by decide, by decide, by decide⟩

end Kanban
